import Mathlib

/-!
Shallow embedding of the V2Link daisy-chain serial link layer.
The model follows src/src/V2Link.h, the complete current implementation;
src/src/V2Link.cpp is an earlier revision of the same component and is
embedded separately where its behaviour differs and a claim refers to it
(the quantization constants of the pulse codec and the idle predicate).

Machine bytes are natural numbers reduced modulo 256 where the code
stores into a byte; the 32-bit microsecond clock is an explicit argument
of each poll, sampled once per call, and unsigned 32-bit timestamp
subtraction is the function wsub.  The serial peripheral is modelled as
the queue of pending receive bytes, the free transmit-buffer room and
the list of bytes written so far; the GPIO transmit-enable line is a
boolean level.  The virtual receivePlug/receiveSocket hooks become the
two optional packets a poll cycle hands to them.
-/

namespace V2Link

/-- Unsigned 32-bit wraparound subtraction: the C expression
of the form (unsigned long)(a - b) evaluated on 32-bit operands. -/
def wsub (a b : Nat) : Nat :=
  (2 ^ 32 + a % 2 ^ 32 - b % 2 ^ 32) % 2 ^ 32

/-- The 5-byte wire frame, the field Packet::_data of the source.
Byte 0 is the header: high nibble address, low nibble type. -/
structure Packet where
  d0 : Nat
  d1 : Nat
  d2 : Nat
  d3 : Nat
  d4 : Nat
deriving DecidableEq

/-- Packet::getType: the low nibble of the header byte
(0 = Type::MIDI, 1 = Type::Pulse). -/
def Packet.getType (p : Packet) : Nat := p.d0 % 16

/-- Packet::getAddress: the high nibble of the header byte. -/
def Packet.getAddress (p : Packet) : Nat := p.d0 / 16

/-- Five wire octets read into a fresh packet by readBytes(_data, 5);
each octet is a byte, hence the reduction modulo 256. -/
def Packet.ofList (l : List Nat) : Packet :=
  ⟨l.getD 0 0 % 256, l.getD 1 0 % 256, l.getD 2 0 % 256,
   l.getD 3 0 % 256, l.getD 4 0 % 256⟩

/-- The 4 data bytes of a V2MIDI packet, the external transport payload
the MIDI pass-through copies verbatim. -/
structure MidiData where
  m0 : Nat
  m1 : Nat
  m2 : Nat
  m3 : Nat
deriving DecidableEq

/-- Packet::send(V2MIDI::Packet*) of the header implementation: the
header byte is set to Type::MIDI (value 0, wiping the address nibble)
and the 4 payload bytes are copied into the body.  The previous frame
contents are fully overwritten. -/
def Packet.sendMidi (_p : Packet) (m : MidiData) : Packet :=
  ⟨0, m.m0, m.m1, m.m2, m.m3⟩

/-- Packet::receive(V2MIDI::Packet*) of the header implementation:
fails unless the type nibble is MIDI, otherwise copies the 4 body
bytes out. -/
def Packet.receiveMidi (p : Packet) : Option MidiData :=
  if p.getType = 0 then some ⟨p.d1, p.d2, p.d3, p.d4⟩ else none

/-- Packet::Pulse with the two analog magnitudes as exact rationals;
the C code stores them as 32-bit floats, whose comparisons against the
literal bounds and whose divisions by the power-of-two-free constants
agree with the rational values on the inputs the claims name. -/
structure Pulse where
  port : Nat
  watts : ℚ
  seconds : ℚ
  fadeIn : Bool
  fadeOut : Bool

/-- The clamp setPulse applies to watts: only values above 100 are
clamped; the source has no lower clamp. -/
def clampWatts (w : ℚ) : ℚ := if w > 100 then 100 else w

/-- The clamp setPulse applies to seconds (header variant, maximum
100): only values above 100 are clamped; the source has no lower
clamp. -/
def clampSeconds (s : ℚ) : ℚ := if s > 100 then 100 else s

/-- Packet::setPulse of the header implementation, with the two
floating-point power-law quantizers abstracted as arguments: qw stands
for the computation uint16_t(powf(fraction, 1.f/3.f) * 4095.f) and qs
for uint16_t(powf(fraction, 1.f/8.f) * 4095.f).  Both produce a 16-bit
value, hence the reduction modulo 65536.  The clamping, the fraction
formation and the bit packing are the source's. -/
def Packet.setPulse (qw qs : ℚ → Nat) (pulse : Pulse) : Packet :=
  let d1 := pulse.port % 16 |||
    (if pulse.fadeIn then 16 else 0) ||| (if pulse.fadeOut then 32 else 0)
  let mapW := qw (clampWatts pulse.watts / 100) % 65536
  let mapS := qs (clampSeconds pulse.seconds / 100) % 65536
  let d2 := ((mapW / 256) * 16) % 256 ||| mapS / 256
  ⟨1, d1, d2, mapW % 256, mapS % 256⟩

/-- The 12-bit power field of a pulse frame, reconstructed the way
getPulse does: shift the high nibble of byte 2 up by 8 bits and merge
byte 3. -/
def Packet.powerRaw (p : Packet) : Nat := ((p.d2 / 16) * 256) ||| p.d3

/-- The 12-bit duration field of a pulse frame, reconstructed the way
getPulse does: shift the low nibble of byte 2 up by 8 bits and merge
byte 4. -/
def Packet.durationRaw (p : Packet) : Nat := ((p.d2 % 16) * 256) ||| p.d4

/-- The serial peripheral as the core uses it: the pending receive
bytes, the free transmit-buffer room reported by availableForWrite, and
the bytes written so far. -/
structure Uart where
  rxBuf : List Nat
  txRoom : Nat
  txWritten : List Nat
deriving DecidableEq

/-- Runtime state of V2Link::Port (header variant): the peripheral, the
transmit-enable pin number, the GPIO line level, the fields _active,
_timeoutUsec and _usec, and the two statistics counters. -/
structure Port where
  uart : Uart
  pinTx : Nat
  line : Bool
  active : Bool
  timeoutUsec : Nat
  usec : Nat
  statInput : Nat
  statOutput : Nat
deriving DecidableEq

/-- Port::receive(Packet*): the non-blocking deframer; now is the
microsecond clock sampled for this poll.  No pending byte returns
immediately; fewer than 5 pending bytes arm the partial-frame timer and
drain the buffer once more than 100 microseconds have passed; 5 or more
pending bytes are consumed as one frame and counted. -/
def Port.receive (p : Port) (now : Nat) : Port × Option Packet :=
  if p.uart.rxBuf.length = 0 then (p, none)
  else
    let q : Port := { p with usec := now }
    if q.uart.rxBuf.length < 5 then
      let q := if q.timeoutUsec = 0 then { q with timeoutUsec := now } else q
      if 100 < wsub now q.timeoutUsec then
        ({ q with uart := { q.uart with rxBuf := [] }, timeoutUsec := 0 }, none)
      else (q, none)
    else
      ({ q with
          timeoutUsec := 0,
          uart := { q.uart with rxBuf := q.uart.rxBuf.drop 5 },
          statInput := q.statInput + 1 },
        some (Packet.ofList q.uart.rxBuf))

/-- Port::send(address, packet) (header variant): assert the
transmit-enable line on the rising edge, record the activity time,
refuse when fewer than 5 bytes of transmit room remain, otherwise write
the header byte (address shifted into the high nibble, merged with the
stored type nibble) and the 4 body bytes, and count the frame. -/
def Port.send (p : Port) (now : Nat) (address : Nat) (pkt : Packet) : Port × Bool :=
  let q : Port :=
    if !p.active then
      { p with line := if 0 < p.pinTx then true else p.line, active := true }
    else p
  let q : Port := { q with usec := now }
  if q.uart.txRoom < 5 then (q, false)
  else
    let header := (address * 16) % 256 ||| pkt.d0 % 16
    ({ q with
        uart := { q.uart with
          txRoom := q.uart.txRoom - 5,
          txWritten := q.uart.txWritten ++ [header, pkt.d1, pkt.d2, pkt.d3, pkt.d4] },
        statOutput := q.statOutput + 1 },
      true)

/-- Port::powerDown (header variant): nothing while inactive; nothing
while fewer than 100 milliseconds have passed since the last activity;
otherwise release the transmit-enable line and mark the port
inactive. -/
def Port.powerDown (p : Port) (now : Nat) : Port :=
  if !p.active then p
  else if wsub now p.usec < 100 * 1000 then p
  else { p with line := if 0 < p.pinTx then false else p.line, active := false }

/-- Port::idle of the header implementation: whether the
transmit-enable state is inactive. -/
def Port.idle (p : Port) : Bool := !p.active

/-- Port::idle of the earlier .cpp revision: quiet for at least 1
millisecond since the last activity and no pending receive byte. -/
def Port.idleCpp (p : Port) (now : Nat) : Bool :=
  if wsub now p.usec < 1000 then false
  else if 0 < p.uart.rxBuf.length then false
  else true

/-- V2Link: up to two ports, the plug toward the parent device and the
socket toward the child devices. -/
structure Link where
  plug : Option Port
  socket : Option Port
deriving DecidableEq

/-- The observable outcome of one V2Link::loop poll cycle: the two port
states afterwards, and the packet handed to each of the local
receivePlug / receiveSocket hooks, when one fired. -/
structure LoopResult where
  plug : Option Port
  socket : Option Port
  plugDispatch : Option Packet
  socketDispatch : Option Packet
deriving DecidableEq

/-- The plug block of V2Link::loop: poll the plug; a packet with
address above 0 is forwarded to the socket, when present, with the
address decremented; a packet with address 0 goes to the local
receivePlug hook; then the plug powers down.  Returns the plug state,
the socket state and the locally dispatched packet. -/
def Link.plugPhase (plo sop : Option Port) (now : Nat) :
    Option Port × Option Port × Option Packet :=
  match plo with
  | none => (none, sop, none)
  | some pl =>
    match pl.receive now with
    | (pl1, none) => (some (pl1.powerDown now), sop, none)
    | (pl1, some pkt) =>
      if 0 < pkt.getAddress then
        match sop with
        | none => (some (pl1.powerDown now), none, none)
        | some so =>
          (some (pl1.powerDown now),
           some (so.send now (pkt.getAddress - 1) pkt).1, none)
      else
        (some (pl1.powerDown now), sop, some pkt)

/-- The socket block of V2Link::loop: poll the socket; a received
packet with address below 15 is forwarded to the plug, when present,
with the address incremented, and every received packet goes to the
local receiveSocket hook; then the socket powers down.  Returns the
plug state, the socket state and the locally dispatched packet. -/
def Link.socketPhase (plo sop : Option Port) (now : Nat) :
    Option Port × Option Port × Option Packet :=
  match sop with
  | none => (plo, none, none)
  | some so =>
    match so.receive now with
    | (so1, none) => (plo, some (so1.powerDown now), none)
    | (so1, some pkt) =>
      let plo2 :=
        match plo with
        | none => none
        | some pl =>
          if pkt.getAddress < 15 then
            some (pl.send now (pkt.getAddress + 1) pkt).1
          else some pl
      (plo2, some (so1.powerDown now), some pkt)

/-- V2Link::loop: the plug block, then the socket block, with one clock
sample for the whole poll cycle. -/
def Link.loop (l : Link) (now : Nat) : LoopResult :=
  match Link.plugPhase l.plug l.socket now with
  | (plug1, socket1, plugDisp) =>
    match Link.socketPhase plug1 socket1 now with
    | (plug2, socket2, socketDisp) => ⟨plug2, socket2, plugDisp, socketDisp⟩

/-- V2Link::idle: false as soon as a present port is not idle. -/
def Link.idle (l : Link) : Bool :=
  if (match l.plug with | some pl => !pl.idle | none => false) then false
  else if (match l.socket with | some so => !so.idle | none => false) then false
  else true

/-- The transmit log of an optional port; an absent port has written
nothing. -/
def txOf (po : Option Port) : List Nat :=
  match po with
  | none => []
  | some p => p.uart.txWritten

/-- The output statistics counter of an optional port. -/
def outOf (po : Option Port) : Nat :=
  match po with
  | none => 0
  | some p => p.statOutput

end V2Link

namespace V2Link

/-- Merging a value shifted into the high nibble with a low nibble is
addition: the two bit ranges are disjoint. -/
theorem lor_nibbles : ∀ x < 16, ∀ y < 16, (x * 16) ||| y = x * 16 + y := by decide

set_option maxRecDepth 100000 in
/-- Merging a value shifted up by 8 bits with a byte is addition: the
two bit ranges are disjoint. -/
theorem lor_byte : ∀ x < 16, ∀ y < 256, (x * 256) ||| y = x * 256 + y := by decide

/-- Port::receive never touches the transmit side of the peripheral,
the statistics output counter, the activity flag or the line. -/
theorem Port.receive_tx (p : Port) (now : Nat) :
    ((p.receive now).1.uart.txWritten = p.uart.txWritten ∧
      (p.receive now).1.uart.txRoom = p.uart.txRoom) ∧
    (p.receive now).1.statOutput = p.statOutput ∧
    (p.receive now).1.active = p.active ∧
    (p.receive now).1.line = p.line := by
  unfold Port.receive
  split
  · exact ⟨⟨rfl, rfl⟩, rfl, rfl, rfl⟩
  · dsimp only
    split
    · split <;> split <;> exact ⟨⟨rfl, rfl⟩, rfl, rfl, rfl⟩
    · exact ⟨⟨rfl, rfl⟩, rfl, rfl, rfl⟩

/-- Port::powerDown never touches the peripheral, the statistics or the
partial-frame timer. -/
theorem Port.powerDown_uart (p : Port) (now : Nat) :
    (p.powerDown now).uart = p.uart ∧
    (p.powerDown now).statOutput = p.statOutput ∧
    (p.powerDown now).statInput = p.statInput ∧
    (p.powerDown now).timeoutUsec = p.timeoutUsec ∧
    (p.powerDown now).usec = p.usec := by
  unfold Port.powerDown
  split
  · exact ⟨rfl, rfl, rfl, rfl, rfl⟩
  · split
    · exact ⟨rfl, rfl, rfl, rfl, rfl⟩
    · exact ⟨rfl, rfl, rfl, rfl, rfl⟩

/-- A port with an empty receive queue polls to itself and yields no
packet. -/
theorem Port.receive_empty (p : Port) (now : Nat) (h : p.uart.rxBuf = []) :
    p.receive now = (p, none) := by
  unfold Port.receive
  rw [h]
  rfl

end V2Link

namespace V2Link

/-- Port::send always records the activity time and leaves the port
active, whether or not the frame fit. -/
theorem Port.send_active (p : Port) (now address : Nat) (pkt : Packet) :
    (p.send now address pkt).1.active = true ∧
    (p.send now address pkt).1.usec = now := by
  unfold Port.send
  dsimp only
  split_ifs <;> simp_all

/-- Port::send with fewer than 5 bytes of transmit room: failure, no
byte written, no room consumed, output counter unchanged. -/
theorem Port.send_fail (p : Port) (now address : Nat) (pkt : Packet)
    (h : p.uart.txRoom < 5) :
    (p.send now address pkt).2 = false ∧
    (p.send now address pkt).1.uart.txWritten = p.uart.txWritten ∧
    (p.send now address pkt).1.uart.txRoom = p.uart.txRoom ∧
    (p.send now address pkt).1.statOutput = p.statOutput := by
  unfold Port.send
  dsimp only
  split_ifs <;> simp_all

/-- Port::send with at least 5 bytes of transmit room: success, the
header byte and the 4 body bytes are appended to the transmit log, and
the output counter increments. -/
theorem Port.send_success (p : Port) (now address : Nat) (pkt : Packet)
    (h : 5 ≤ p.uart.txRoom) :
    (p.send now address pkt).2 = true ∧
    (p.send now address pkt).1.uart.txWritten =
      p.uart.txWritten ++
        [(address * 16) % 256 ||| pkt.d0 % 16, pkt.d1, pkt.d2, pkt.d3, pkt.d4] ∧
    (p.send now address pkt).1.statOutput = p.statOutput + 1 := by
  unfold Port.send
  have h' : ¬ p.uart.txRoom < 5 := Nat.not_lt.mpr h
  dsimp only
  split_ifs <;> simp_all

/-- Port::receive yields a packet exactly by consuming a full 5-byte
frame: the frame is the first 5 pending octets, and the poll records
the activity time, clears the partial-frame timer, drops the consumed
bytes and counts the frame. -/
theorem Port.receive_some (p p1 : Port) (now : Nat) (pkt : Packet)
    (h : p.receive now = (p1, some pkt)) :
    5 ≤ p.uart.rxBuf.length ∧
    pkt = Packet.ofList p.uart.rxBuf ∧
    p1 = { p with
            usec := now, timeoutUsec := 0,
            uart := { p.uart with rxBuf := p.uart.rxBuf.drop 5 },
            statInput := p.statInput + 1 } := by
  unfold Port.receive at h
  split at h
  · simp at h
  · dsimp only at h
    split at h
    · split at h <;> split at h <;> simp_all
    · refine ⟨by omega, ?_, ?_⟩
      · have := congrArg Prod.snd h
        simpa using this.symm
      · have := congrArg Prod.fst h
        exact this.symm

/-- A packet produced by Port::receive is made of wire octets: its
address nibble and type nibble are at most 15. -/
theorem Port.receive_addr_le (p p1 : Port) (now : Nat) (pkt : Packet)
    (h : p.receive now = (p1, some pkt)) :
    pkt.getAddress ≤ 15 ∧ pkt.getType ≤ 15 := by
  obtain ⟨-, hp, -⟩ := Port.receive_some p p1 now pkt h
  subst hp
  constructor
  · exact Nat.lt_succ_iff.mp
      (Nat.div_lt_of_lt_mul (Nat.lt_of_lt_of_le (Nat.mod_lt _ (by norm_num)) (by norm_num)))
  · exact Nat.lt_succ_iff.mp (Nat.mod_lt _ (by norm_num))

end V2Link

namespace V2Link

/-- The plug block with a present plug whose poll yields a packet
addressed to this device (address 0): the packet goes to the local
hook, the socket is left alone. -/
theorem Link.plugPhase_local (pl pl1 : Port) (sop : Option Port) (now : Nat)
    (pkt : Packet) (hr : pl.receive now = (pl1, some pkt))
    (ha : pkt.getAddress = 0) :
    Link.plugPhase (some pl) sop now = (some (pl1.powerDown now), sop, some pkt) := by
  unfold Link.plugPhase
  dsimp only
  rw [hr]
  simp [ha]

/-- The plug block with a present plug whose poll yields a packet with
a positive address and no socket: the packet is dropped. -/
theorem Link.plugPhase_forward_none (pl pl1 : Port) (now : Nat)
    (pkt : Packet) (hr : pl.receive now = (pl1, some pkt))
    (ha : 0 < pkt.getAddress) :
    Link.plugPhase (some pl) none now = (some (pl1.powerDown now), none, none) := by
  unfold Link.plugPhase
  dsimp only
  rw [hr]
  dsimp only
  rw [if_pos ha]

/-- The plug block with a present plug whose poll yields a packet with
a positive address and a present socket: the packet is sent on the
socket with the address decremented. -/
theorem Link.plugPhase_forward (pl pl1 so : Port) (now : Nat)
    (pkt : Packet) (hr : pl.receive now = (pl1, some pkt))
    (ha : 0 < pkt.getAddress) :
    Link.plugPhase (some pl) (some so) now =
      (some (pl1.powerDown now),
       some (so.send now (pkt.getAddress - 1) pkt).1, none) := by
  unfold Link.plugPhase
  dsimp only
  rw [hr]
  dsimp only
  rw [if_pos ha]

/-- The plug block with a present plug whose poll yields nothing. -/
theorem Link.plugPhase_none (pl pl1 : Port) (sop : Option Port) (now : Nat)
    (hr : pl.receive now = (pl1, none)) :
    Link.plugPhase (some pl) sop now = (some (pl1.powerDown now), sop, none) := by
  unfold Link.plugPhase
  dsimp only
  rw [hr]

/-- The socket block with a present socket whose poll yields a packet:
the packet always reaches the local hook; with a present plug and an
address below 15 it is also sent on the plug with the address
incremented, and with address 15 it is not. -/
theorem Link.socketPhase_some (plo : Option Port) (so so1 : Port) (now : Nat)
    (pkt : Packet) (hr : so.receive now = (so1, some pkt)) :
    Link.socketPhase plo (some so) now =
      ((match plo with
        | none => none
        | some pl =>
          if pkt.getAddress < 15 then
            some (pl.send now (pkt.getAddress + 1) pkt).1
          else some pl),
       some (so1.powerDown now), some pkt) := by
  unfold Link.socketPhase
  dsimp only
  rw [hr]

/-- The socket block with a present socket whose poll yields nothing. -/
theorem Link.socketPhase_none (plo : Option Port) (so so1 : Port) (now : Nat)
    (hr : so.receive now = (so1, none)) :
    Link.socketPhase plo (some so) now = (plo, some (so1.powerDown now), none) := by
  unfold Link.socketPhase
  dsimp only
  rw [hr]

/-- One loop poll, written through the two phases. -/
theorem Link.loop_phases (l : Link) (now : Nat) :
    l.loop now =
      ⟨(Link.socketPhase (Link.plugPhase l.plug l.socket now).1
          (Link.plugPhase l.plug l.socket now).2.1 now).1,
       (Link.socketPhase (Link.plugPhase l.plug l.socket now).1
          (Link.plugPhase l.plug l.socket now).2.1 now).2.1,
       (Link.plugPhase l.plug l.socket now).2.2,
       (Link.socketPhase (Link.plugPhase l.plug l.socket now).1
          (Link.plugPhase l.plug l.socket now).2.1 now).2.2⟩ := by
  unfold Link.loop
  rfl

end V2Link

namespace V2Link

/-- Claim C9: encoding a 4-byte MIDI payload with Packet::send and
decoding it back with Packet::receive reproduces the payload exactly,
and the type nibble of the encoded frame is MIDI (0). -/
theorem C9_midi_roundtrip (p : Packet) (m : MidiData) :
    (p.sendMidi m).receiveMidi = some m ∧ (p.sendMidi m).getType = 0 := by
  constructor
  · simp [Packet.sendMidi, Packet.receiveMidi, Packet.getType]
  · rfl

/-- Claim C5: with a partial frame pending (1 to 4 bytes), the await
timer already recorded, and more than 100 microseconds elapsed since it
was recorded, the next receive poll drains all pending bytes, resets
the await timer to zero (idle) and produces no packet. -/
theorem C5_partial_frame_timeout (p : Port) (now : Nat)
    (hne : ¬ p.uart.rxBuf.length = 0) (hlt : p.uart.rxBuf.length < 5)
    (ht : ¬ p.timeoutUsec = 0) (helapsed : 100 < wsub now p.timeoutUsec) :
    p.receive now =
      ({ p with
          usec := now, timeoutUsec := 0,
          uart := { p.uart with rxBuf := [] } }, none) := by
  unfold Port.receive
  dsimp only
  rw [if_neg hne, if_pos hlt, if_neg ht, if_pos helapsed]

/-- Concrete port for the claim C5 witness: 3 of 5 bytes pending, await
timer recorded at 50 microseconds. -/
def portC5 : Port := ⟨⟨[1, 2, 3], 0, []⟩, 0, false, false, 50, 0, 0, 0⟩

/-- Witness for claim C5 at the clock value 200 (150 microseconds after
the await timer was recorded). -/
theorem C5_partial_frame_timeout_witness :
    portC5.receive 200 =
      ({ portC5 with
          usec := 200, timeoutUsec := 0,
          uart := { portC5.uart with rxBuf := [] } }, none) :=
  C5_partial_frame_timeout portC5 200 (by decide) (by decide) (by decide) (by decide)

/-- Claim C6: Port::send with fewer than 5 bytes of transmit room
fails, writes nothing and leaves the output counter unchanged; with
room it succeeds, writes exactly the header byte (the address shifted
into the high nibble merged with the stored type nibble) followed by
the 4 body bytes, and increments the output counter. -/
theorem C6_send_backpressure (p : Port) (now address : Nat) (pkt : Packet) :
    (p.uart.txRoom < 5 →
      (p.send now address pkt).2 = false ∧
      (p.send now address pkt).1.uart.txWritten = p.uart.txWritten ∧
      (p.send now address pkt).1.statOutput = p.statOutput) ∧
    (5 ≤ p.uart.txRoom →
      (p.send now address pkt).2 = true ∧
      (p.send now address pkt).1.uart.txWritten =
        p.uart.txWritten ++
          [(address * 16) % 256 ||| pkt.d0 % 16, pkt.d1, pkt.d2, pkt.d3, pkt.d4] ∧
      (p.send now address pkt).1.statOutput = p.statOutput + 1) := by
  constructor
  · intro h
    obtain ⟨a, b, -, c⟩ := Port.send_fail p now address pkt h
    exact ⟨a, b, c⟩
  · intro h
    exact Port.send_success p now address pkt h

/-- Concrete port for the claim C6 witness, failure side: 3 bytes of
transmit room. -/
def portC6a : Port := ⟨⟨[], 3, [9]⟩, 0, false, false, 0, 0, 0, 0⟩

/-- Concrete port for the claim C6 witness, success side: 8 bytes of
transmit room. -/
def portC6b : Port := ⟨⟨[], 8, [9]⟩, 0, false, false, 0, 0, 0, 0⟩

/-- Concrete packet for the claim C6 witness: stored address nibble 2,
type nibble 5. -/
def pktC6 : Packet := ⟨37, 11, 22, 33, 44⟩

/-- Witness for claim C6 at address 3: the roomless port refuses and
stays untouched, the roomy port writes the 5-byte frame. -/
theorem C6_send_backpressure_witness :
    ((portC6a.send 7 3 pktC6).2 = false ∧
      (portC6a.send 7 3 pktC6).1.uart.txWritten = portC6a.uart.txWritten ∧
      (portC6a.send 7 3 pktC6).1.statOutput = portC6a.statOutput) ∧
    ((portC6b.send 7 3 pktC6).2 = true ∧
      (portC6b.send 7 3 pktC6).1.uart.txWritten =
        portC6b.uart.txWritten ++
          [(3 * 16) % 256 ||| pktC6.d0 % 16, pktC6.d1, pktC6.d2, pktC6.d3, pktC6.d4] ∧
      (portC6b.send 7 3 pktC6).1.statOutput = portC6b.statOutput + 1) :=
  ⟨(C6_send_backpressure portC6a 7 3 pktC6).1 (by decide),
   (C6_send_backpressure portC6b 7 3 pktC6).2 (by decide)⟩

/-- Claim C7: a send leaves the port active with the activity time
recorded; powerDown changes nothing while fewer than 100 milliseconds
have passed since the last activity; once at least 100 milliseconds
have passed, the next powerDown de-asserts the transmit-enable line
(when the port drives one) and marks the port inactive. -/
theorem C7_powerdown_threshold (p : Port) (now now2 address : Nat) (pkt : Packet) :
    ((p.send now address pkt).1.active = true ∧
      (p.send now address pkt).1.usec = now) ∧
    (wsub now2 p.usec < 100 * 1000 → p.powerDown now2 = p) ∧
    (p.active = true → 100 * 1000 ≤ wsub now2 p.usec →
      (p.powerDown now2).active = false ∧
      (0 < p.pinTx → (p.powerDown now2).line = false)) := by
  refine ⟨Port.send_active p now address pkt, ?_, ?_⟩
  · intro h
    unfold Port.powerDown
    split_ifs <;> simp_all
  · intro ha h
    unfold Port.powerDown
    rw [if_neg (by simp [ha]), if_neg (Nat.not_lt.mpr h)]
    constructor
    · rfl
    · intro hpin
      show (if 0 < p.pinTx then false else p.line) = false
      rw [if_pos hpin]

/-- Concrete active port for the claim C7 witness: transmit-enable pin
5 asserted, last activity at 1000 microseconds. -/
def portC7 : Port := ⟨⟨[], 32, []⟩, 5, true, true, 0, 1000, 0, 0⟩

/-- Witness for claim C7: a send at 1000 leaves the port active; a
powerDown at 5000 (4 milliseconds later) changes nothing; a powerDown
at 200000 (199 milliseconds later) de-asserts the line and
deactivates. -/
theorem C7_powerdown_threshold_witness :
    ((portC7.send 1000 0 pktC6).1.active = true ∧
      (portC7.send 1000 0 pktC6).1.usec = 1000) ∧
    (portC7.powerDown 5000 = portC7) ∧
    ((portC7.powerDown 200000).active = false ∧
      (0 < portC7.pinTx → (portC7.powerDown 200000).line = false)) :=
  ⟨(C7_powerdown_threshold portC7 1000 5000 0 pktC6).1,
   (C7_powerdown_threshold portC7 1000 5000 0 pktC6).2.1 (by decide),
   (C7_powerdown_threshold portC7 1000 200000 0 pktC6).2.2 (by decide) (by decide)⟩

end V2Link

namespace V2Link

/-- The socket block never transmits on the socket and never counts
output on it: the socket's transmit log and output counter leave the
block unchanged (only a plug send can happen there). -/
theorem Link.socketPhase_tx (plo sop : Option Port) (now : Nat) :
    txOf (Link.socketPhase plo sop now).2.1 = txOf sop ∧
    outOf (Link.socketPhase plo sop now).2.1 = outOf sop := by
  unfold Link.socketPhase
  cases sop with
  | none => exact ⟨rfl, rfl⟩
  | some so =>
    dsimp only
    rcases h : so.receive now with ⟨so1, r⟩
    have h1 : so1 = (so.receive now).1 := by rw [h]
    cases r with
    | none =>
      dsimp only
      constructor
      · show (so1.powerDown now).uart.txWritten = so.uart.txWritten
        rw [(Port.powerDown_uart so1 now).1, h1, (Port.receive_tx so now).1.1]
      · show (so1.powerDown now).statOutput = so.statOutput
        rw [(Port.powerDown_uart so1 now).2.1, h1, (Port.receive_tx so now).2.1]
    | some pkt =>
      dsimp only
      constructor
      · show (so1.powerDown now).uart.txWritten = so.uart.txWritten
        rw [(Port.powerDown_uart so1 now).1, h1, (Port.receive_tx so now).1.1]
      · show (so1.powerDown now).statOutput = so.statOutput
        rw [(Port.powerDown_uart so1 now).2.1, h1, (Port.receive_tx so now).2.1]

/-- Claim C1: when the plug poll completes a packet, an address nibble
of 0 sends it to the local receivePlug hook and nothing is ever
transmitted on the socket during that poll cycle; a positive address
nibble suppresses the local dispatch, and with a present socket that
has room the packet's 5 bytes go out on the socket with the address
nibble decremented by one (the header byte keeps the stored type
nibble). -/
theorem C1_plug_forwarding (pl pl1 so : Port) (sop : Option Port)
    (now : Nat) (pkt : Packet) (hr : pl.receive now = (pl1, some pkt)) :
    (pkt.getAddress = 0 →
      ((Link.mk (some pl) sop).loop now).plugDispatch = some pkt ∧
      txOf ((Link.mk (some pl) sop).loop now).socket = txOf sop) ∧
    (0 < pkt.getAddress →
      ((Link.mk (some pl) sop).loop now).plugDispatch = none) ∧
    (0 < pkt.getAddress → 5 ≤ so.uart.txRoom →
      txOf ((Link.mk (some pl) (some so)).loop now).socket =
        so.uart.txWritten ++
          [((pkt.getAddress - 1) * 16) % 256 ||| pkt.d0 % 16,
           pkt.d1, pkt.d2, pkt.d3, pkt.d4] ∧
      (((pkt.getAddress - 1) * 16) % 256 ||| pkt.d0 % 16) / 16 =
        pkt.getAddress - 1 ∧
      (((pkt.getAddress - 1) * 16) % 256 ||| pkt.d0 % 16) % 16 =
        pkt.getType) := by
  refine ⟨?_, ?_, ?_⟩
  · intro ha
    rw [Link.loop_phases]
    dsimp only
    rw [Link.plugPhase_local pl pl1 sop now pkt hr ha]
    exact ⟨rfl, (Link.socketPhase_tx _ sop now).1⟩
  · intro ha
    rw [Link.loop_phases]
    dsimp only
    cases sop with
    | none => rw [Link.plugPhase_forward_none pl pl1 now pkt hr ha]
    | some so2 => rw [Link.plugPhase_forward pl pl1 so2 now pkt hr ha]
  · intro ha hroom
    have haddr : pkt.getAddress ≤ 15 := (Port.receive_addr_le pl pl1 now pkt hr).1
    have hsend := Port.send_success so now (pkt.getAddress - 1) pkt hroom
    constructor
    · rw [Link.loop_phases]
      dsimp only
      rw [Link.plugPhase_forward pl pl1 so now pkt hr ha]
      have := (Link.socketPhase_tx (some (pl1.powerDown now))
        (some (so.send now (pkt.getAddress - 1) pkt).1) now).1
      rw [this]
      show (so.send now (pkt.getAddress - 1) pkt).1.uart.txWritten = _
      rw [hsend.2.1]
    · have hx : pkt.getAddress - 1 < 16 := by omega
      have hy : pkt.d0 % 16 < 16 := Nat.mod_lt _ (by norm_num)
      have hm : (pkt.getAddress - 1) * 16 % 256 = (pkt.getAddress - 1) * 16 :=
        Nat.mod_eq_of_lt (by omega)
      rw [hm, lor_nibbles _ hx _ hy]
      unfold Packet.getType
      omega

/-- Plug and packet for the claim C1 witness: 5 bytes pending, address
nibble 0 in the first, address nibble 3 in the second scenario. -/
def plugC1a : Port := ⟨⟨[1, 10, 20, 30, 40], 0, []⟩, 0, false, false, 0, 0, 0, 0⟩

/-- Plug for the second claim C1 scenario: header byte 49, so address
nibble 3 and type nibble 1. -/
def plugC1b : Port := ⟨⟨[49, 10, 20, 30, 40], 0, []⟩, 0, false, false, 0, 0, 0, 0⟩

/-- Socket for the claim C1 witness: 16 bytes of transmit room. -/
def sockC1 : Port := ⟨⟨[], 16, []⟩, 0, false, false, 0, 0, 0, 0⟩

/-- Witness for claim C1: the address-0 packet is locally dispatched
with nothing sent on the socket; the address-3 packet is not locally
dispatched and goes out on the socket readdressed to 2. -/
theorem C1_plug_forwarding_witness :
    (((Link.mk (some plugC1a) (some sockC1)).loop 7).plugDispatch =
        some (Packet.ofList [1, 10, 20, 30, 40]) ∧
      txOf ((Link.mk (some plugC1a) (some sockC1)).loop 7).socket =
        txOf (some sockC1)) ∧
    (((Link.mk (some plugC1b) (some sockC1)).loop 7).plugDispatch = none) ∧
    (txOf ((Link.mk (some plugC1b) (some sockC1)).loop 7).socket =
        sockC1.uart.txWritten ++ [33, 10, 20, 30, 40]) := by
  have hra : plugC1a.receive 7 =
      ({ plugC1a with
          usec := 7, timeoutUsec := 0,
          uart := { plugC1a.uart with rxBuf := [] },
          statInput := 1 }, some (Packet.ofList [1, 10, 20, 30, 40])) := by decide
  have hrb : plugC1b.receive 7 =
      ({ plugC1b with
          usec := 7, timeoutUsec := 0,
          uart := { plugC1b.uart with rxBuf := [] },
          statInput := 1 }, some (Packet.ofList [49, 10, 20, 30, 40])) := by decide
  refine ⟨?_, ?_, ?_⟩
  · exact (C1_plug_forwarding plugC1a _ sockC1 (some sockC1) 7 _ hra).1 (by decide)
  · exact (C1_plug_forwarding plugC1b _ sockC1 (some sockC1) 7 _ hrb).2.1 (by decide)
  · have := ((C1_plug_forwarding plugC1b _ sockC1 (some sockC1) 7 _ hrb).2.2
      (by decide) (by decide)).1
    rw [this]
    rfl

end V2Link

namespace V2Link

/-- Claim C2: when the socket poll completes a packet (and the plug
poll yielded none), the packet always reaches the local receiveSocket
hook, whatever its address; with an address nibble below 15 and room on
the plug its 5 bytes go out on the plug with the address nibble
incremented by one (keeping the stored type nibble); with address
nibble 15 nothing is transmitted on the plug — the address never
increments past 15. -/
theorem C2_socket_forwarding (pl pl1 so so1 : Port) (now : Nat) (pkt : Packet)
    (hp : pl.receive now = (pl1, none))
    (hr : so.receive now = (so1, some pkt)) :
    ((Link.mk (some pl) (some so)).loop now).socketDispatch = some pkt ∧
    (pkt.getAddress < 15 → 5 ≤ pl.uart.txRoom →
      txOf ((Link.mk (some pl) (some so)).loop now).plug =
        pl.uart.txWritten ++
          [((pkt.getAddress + 1) * 16) % 256 ||| pkt.d0 % 16,
           pkt.d1, pkt.d2, pkt.d3, pkt.d4] ∧
      (((pkt.getAddress + 1) * 16) % 256 ||| pkt.d0 % 16) / 16 =
        pkt.getAddress + 1 ∧
      (((pkt.getAddress + 1) * 16) % 256 ||| pkt.d0 % 16) % 16 =
        pkt.getType) ∧
    (pkt.getAddress = 15 →
      txOf ((Link.mk (some pl) (some so)).loop now).plug = pl.uart.txWritten) := by
  have hpd_uart : (pl1.powerDown now).uart = pl1.uart := (Port.powerDown_uart pl1 now).1
  have hpl1 : pl1 = (pl.receive now).1 := by rw [hp]
  have hpd_tx : (pl1.powerDown now).uart.txWritten = pl.uart.txWritten := by
    rw [hpd_uart, hpl1, (Port.receive_tx pl now).1.1]
  have hpd_room : (pl1.powerDown now).uart.txRoom = pl.uart.txRoom := by
    rw [hpd_uart, hpl1, (Port.receive_tx pl now).1.2]
  refine ⟨?_, ?_, ?_⟩
  · rw [Link.loop_phases]
    dsimp only
    rw [Link.plugPhase_none pl pl1 (some so) now hp]
    dsimp only
    rw [Link.socketPhase_some (some (pl1.powerDown now)) so so1 now pkt hr]
  · intro h15 hroom
    have hroom2 : 5 ≤ (pl1.powerDown now).uart.txRoom := by rw [hpd_room]; exact hroom
    have hsend := Port.send_success (pl1.powerDown now) now (pkt.getAddress + 1) pkt hroom2
    refine ⟨?_, ?_, ?_⟩
    · rw [Link.loop_phases]
      dsimp only
      rw [Link.plugPhase_none pl pl1 (some so) now hp]
      dsimp only
      rw [Link.socketPhase_some (some (pl1.powerDown now)) so so1 now pkt hr]
      dsimp only
      rw [if_pos h15]
      show ((pl1.powerDown now).send now (pkt.getAddress + 1) pkt).1.uart.txWritten = _
      rw [hsend.2.1, hpd_tx]
    · have hx : pkt.getAddress + 1 < 16 := by omega
      have hy : pkt.d0 % 16 < 16 := Nat.mod_lt _ (by norm_num)
      have hm : (pkt.getAddress + 1) * 16 % 256 = (pkt.getAddress + 1) * 16 :=
        Nat.mod_eq_of_lt (by omega)
      rw [hm, lor_nibbles _ hx _ hy]
      omega
    · have hx : pkt.getAddress + 1 < 16 := by omega
      have hy : pkt.d0 % 16 < 16 := Nat.mod_lt _ (by norm_num)
      have hm : (pkt.getAddress + 1) * 16 % 256 = (pkt.getAddress + 1) * 16 :=
        Nat.mod_eq_of_lt (by omega)
      rw [hm, lor_nibbles _ hx _ hy]
      unfold Packet.getType
      omega
  · intro h15
    rw [Link.loop_phases]
    dsimp only
    rw [Link.plugPhase_none pl pl1 (some so) now hp]
    dsimp only
    rw [Link.socketPhase_some (some (pl1.powerDown now)) so so1 now pkt hr]
    dsimp only
    rw [if_neg (by omega : ¬ pkt.getAddress < 15)]
    exact hpd_tx

/-- Plug for the claim C2 witness: nothing pending, 16 bytes of
transmit room. -/
def plugC2 : Port := ⟨⟨[], 16, []⟩, 0, false, false, 0, 0, 0, 0⟩

/-- Socket for the first claim C2 scenario: pending frame with header
byte 81, so address nibble 5 and type nibble 1. -/
def sockC2a : Port := ⟨⟨[81, 10, 20, 30, 40], 0, []⟩, 0, false, false, 0, 0, 0, 0⟩

/-- Socket for the second claim C2 scenario: pending frame with header
byte 241, so address nibble 15 and type nibble 1. -/
def sockC2b : Port := ⟨⟨[241, 10, 20, 30, 40], 0, []⟩, 0, false, false, 0, 0, 0, 0⟩

/-- Witness for claim C2: the address-5 packet is dispatched locally
and retransmitted on the plug readdressed to 6 (header byte 97); the
address-15 packet is dispatched locally and the plug transmits
nothing. -/
theorem C2_socket_forwarding_witness :
    (((Link.mk (some plugC2) (some sockC2a)).loop 7).socketDispatch =
        some (Packet.ofList [81, 10, 20, 30, 40]) ∧
      txOf ((Link.mk (some plugC2) (some sockC2a)).loop 7).plug =
        plugC2.uart.txWritten ++ [97, 10, 20, 30, 40]) ∧
    (((Link.mk (some plugC2) (some sockC2b)).loop 7).socketDispatch =
        some (Packet.ofList [241, 10, 20, 30, 40]) ∧
      txOf ((Link.mk (some plugC2) (some sockC2b)).loop 7).plug =
        plugC2.uart.txWritten) := by
  have hp : plugC2.receive 7 = (plugC2, none) :=
    Port.receive_empty plugC2 7 (by decide)
  have hra : sockC2a.receive 7 =
      ({ sockC2a with
          usec := 7, timeoutUsec := 0,
          uart := { sockC2a.uart with rxBuf := [] },
          statInput := 1 }, some (Packet.ofList [81, 10, 20, 30, 40])) := by decide
  have hrb : sockC2b.receive 7 =
      ({ sockC2b with
          usec := 7, timeoutUsec := 0,
          uart := { sockC2b.uart with rxBuf := [] },
          statInput := 1 }, some (Packet.ofList [241, 10, 20, 30, 40])) := by decide
  refine ⟨⟨?_, ?_⟩, ?_, ?_⟩
  · exact (C2_socket_forwarding plugC2 plugC2 sockC2a _ 7 _ hp hra).1
  · have := ((C2_socket_forwarding plugC2 plugC2 sockC2a _ 7 _ hp hra).2.1
      (by decide) (by decide)).1
    rw [this]
    rfl
  · exact (C2_socket_forwarding plugC2 plugC2 sockC2b _ 7 _ hp hrb).1
  · exact (C2_socket_forwarding plugC2 plugC2 sockC2b _ 7 _ hp hrb).2.2 (by decide)

end V2Link

namespace V2Link

/-- Claim C10: the result of the forwarding send is ignored by
V2Link::loop.  A plug packet with positive address vanishes without
retry and without local dispatch when the socket is absent (the whole
poll result holds no trace of it) or when the socket send fails for
room (nothing transmitted, nothing counted); a socket packet whose
upstream plug send fails for room is not retransmitted (the plug
transmits and counts nothing) but is still dispatched locally. -/
theorem C10_send_result_ignored (pl pl1 so so1 : Port) (now : Nat) (pkt : Packet) :
    (pl.receive now = (pl1, some pkt) → 0 < pkt.getAddress →
      (Link.mk (some pl) none).loop now =
        ⟨some (pl1.powerDown now), none, none, none⟩) ∧
    (pl.receive now = (pl1, some pkt) → 0 < pkt.getAddress →
      so.uart.txRoom < 5 →
      ((Link.mk (some pl) (some so)).loop now).plugDispatch = none ∧
      txOf ((Link.mk (some pl) (some so)).loop now).socket = so.uart.txWritten ∧
      outOf ((Link.mk (some pl) (some so)).loop now).socket = so.statOutput) ∧
    (pl.receive now = (pl1, none) → so.receive now = (so1, some pkt) →
      pkt.getAddress < 15 → pl.uart.txRoom < 5 →
      ((Link.mk (some pl) (some so)).loop now).socketDispatch = some pkt ∧
      txOf ((Link.mk (some pl) (some so)).loop now).plug = pl.uart.txWritten ∧
      outOf ((Link.mk (some pl) (some so)).loop now).plug = pl.statOutput) := by
  refine ⟨?_, ?_, ?_⟩
  · intro hr ha
    rw [Link.loop_phases]
    dsimp only
    rw [Link.plugPhase_forward_none pl pl1 now pkt hr ha]
    rfl
  · intro hr ha hroom
    have hfail := Port.send_fail so now (pkt.getAddress - 1) pkt hroom
    rw [Link.loop_phases]
    dsimp only
    rw [Link.plugPhase_forward pl pl1 so now pkt hr ha]
    dsimp only
    refine ⟨rfl, ?_, ?_⟩
    · rw [(Link.socketPhase_tx (some (pl1.powerDown now))
        (some (so.send now (pkt.getAddress - 1) pkt).1) now).1]
      exact hfail.2.1
    · rw [(Link.socketPhase_tx (some (pl1.powerDown now))
        (some (so.send now (pkt.getAddress - 1) pkt).1) now).2]
      exact hfail.2.2.2
  · intro hp hr h15 hroom
    have hpd_uart : (pl1.powerDown now).uart = pl1.uart := (Port.powerDown_uart pl1 now).1
    have hpl1 : pl1 = (pl.receive now).1 := by rw [hp]
    have hpd_tx : (pl1.powerDown now).uart.txWritten = pl.uart.txWritten := by
      rw [hpd_uart, hpl1, (Port.receive_tx pl now).1.1]
    have hpd_room : (pl1.powerDown now).uart.txRoom < 5 := by
      rw [hpd_uart, hpl1, (Port.receive_tx pl now).1.2]
      exact hroom
    have hpd_out : (pl1.powerDown now).statOutput = pl.statOutput := by
      rw [(Port.powerDown_uart pl1 now).2.1, hpl1, (Port.receive_tx pl now).2.1]
    have hfail := Port.send_fail (pl1.powerDown now) now (pkt.getAddress + 1) pkt hpd_room
    rw [Link.loop_phases]
    dsimp only
    rw [Link.plugPhase_none pl pl1 (some so) now hp]
    dsimp only
    rw [Link.socketPhase_some (some (pl1.powerDown now)) so so1 now pkt hr]
    dsimp only
    rw [if_pos h15]
    refine ⟨rfl, ?_, ?_⟩
    · show ((pl1.powerDown now).send now (pkt.getAddress + 1) pkt).1.uart.txWritten = _
      rw [hfail.2.1, hpd_tx]
    · show ((pl1.powerDown now).send now (pkt.getAddress + 1) pkt).1.statOutput = _
      rw [hfail.2.2.2, hpd_out]

/-- Socket with only 3 bytes of transmit room for the claim C10
witness. -/
def sockC10 : Port := ⟨⟨[], 3, [8]⟩, 0, false, false, 0, 0, 0, 0⟩

/-- Plug with only 3 bytes of transmit room and nothing pending for the
claim C10 witness. -/
def plugC10 : Port := ⟨⟨[], 3, [8]⟩, 0, false, false, 0, 0, 0, 0⟩

/-- Witness for claim C10: a forwardable plug packet vanishes when the
socket is absent; with a roomless socket nothing is transmitted or
counted on the socket and there is no local plug dispatch; a socket
packet facing a roomless plug is still locally dispatched while the
plug transmits and counts nothing. -/
theorem C10_send_result_ignored_witness :
    ((Link.mk (some plugC1b) none).loop 7 =
      ⟨some ((plugC1b.receive 7).1.powerDown 7), none, none, none⟩) ∧
    (((Link.mk (some plugC1b) (some sockC10)).loop 7).plugDispatch = none ∧
      txOf ((Link.mk (some plugC1b) (some sockC10)).loop 7).socket =
        sockC10.uart.txWritten ∧
      outOf ((Link.mk (some plugC1b) (some sockC10)).loop 7).socket =
        sockC10.statOutput) ∧
    (((Link.mk (some plugC10) (some sockC2a)).loop 7).socketDispatch =
        some (Packet.ofList [81, 10, 20, 30, 40]) ∧
      txOf ((Link.mk (some plugC10) (some sockC2a)).loop 7).plug =
        plugC10.uart.txWritten ∧
      outOf ((Link.mk (some plugC10) (some sockC2a)).loop 7).plug =
        plugC10.statOutput) := by
  have hrb : plugC1b.receive 7 =
      ({ plugC1b with
          usec := 7, timeoutUsec := 0,
          uart := { plugC1b.uart with rxBuf := [] },
          statInput := 1 }, some (Packet.ofList [49, 10, 20, 30, 40])) := by decide
  have hp : plugC10.receive 7 = (plugC10, none) :=
    Port.receive_empty plugC10 7 (by decide)
  have hra : sockC2a.receive 7 =
      ({ sockC2a with
          usec := 7, timeoutUsec := 0,
          uart := { sockC2a.uart with rxBuf := [] },
          statInput := 1 }, some (Packet.ofList [81, 10, 20, 30, 40])) := by decide
  refine ⟨?_, ?_, ?_⟩
  · have := (C10_send_result_ignored plugC1b _ sockC10 sockC10 7
      (Packet.ofList [49, 10, 20, 30, 40])).1 hrb (by decide)
    rw [this, hrb]
  · exact (C10_send_result_ignored plugC1b _ sockC10 sockC10 7
      (Packet.ofList [49, 10, 20, 30, 40])).2.1 hrb (by decide) (by decide)
  · exact (C10_send_result_ignored plugC10 plugC10 sockC2a _ 7
      (Packet.ofList [81, 10, 20, 30, 40])).2.2 hp hra (by decide) (by decide)

end V2Link

namespace V2Link

/-- Port for the claim C8 counterexample: transmit-enable inactive, one
receive byte pending, last activity at time 0. -/
def portC8 : Port := ⟨⟨[7], 5, []⟩, 0, false, false, 0, 0, 0, 0⟩

/-- Claim C8 counterexample: the header implementation's Port::idle
answers true on a port that still has a pending receive byte and whose
activity is more recent than 1 millisecond — it only inspects the
transmit-enable state — so idle is not true exactly when the peripheral
has no bytes pending and the 1 millisecond quiet window has passed. -/
theorem C8_counterexample :
    portC8.idle = true ∧ portC8.uart.rxBuf ≠ [] ∧
    ¬ (portC8.idle = true ↔
        (portC8.uart.rxBuf = [] ∧ 1000 ≤ wsub 0 portC8.usec)) := by
  decide

/-- Claim C8 amended: Port::idle of the earlier .cpp revision is true
exactly when at least 1 millisecond has passed since the last activity
and no receive byte is pending; Port::idle of the header implementation
is true exactly when the transmit-enable state is inactive, regardless
of pending bytes; and V2Link::idle is true exactly when every present
port reports idle. -/
theorem C8_idle_characterisation (p : Port) (now : Nat) (l : Link) :
    (p.idleCpp now = true ↔ (1000 ≤ wsub now p.usec ∧ p.uart.rxBuf = [])) ∧
    (p.idle = true ↔ p.active = false) ∧
    (l.idle = true ↔ ((∀ pl, l.plug = some pl → pl.idle = true) ∧
                      (∀ so, l.socket = some so → so.idle = true))) := by
  refine ⟨?_, ?_, ?_⟩
  · unfold Port.idleCpp
    split_ifs with h1 h2
    · simp only [Bool.false_eq_true, false_iff]
      intro h
      omega
    · simp only [Bool.false_eq_true, false_iff]
      intro h
      rw [h.2] at h2
      simp at h2
    · simp only [true_iff]
      exact ⟨by omega, List.length_eq_zero.mp (by omega)⟩
  · simp [Port.idle]
  · rcases l with ⟨plo, sop⟩
    cases plo with
    | none =>
      cases sop with
      | none => simp [Link.idle]
      | some so => cases h : so.idle <;> simp [Link.idle, h]
    | some pl =>
      cases sop with
      | none => cases h : pl.idle <;> simp [Link.idle, h]
      | some so =>
        cases h1 : pl.idle <;> cases h2 : so.idle <;> simp [Link.idle, h1, h2]

/-- Quiet port for the claim C8 witness: empty buffers, transmit-enable
inactive, last activity at 100 microseconds. -/
def portC8w : Port := ⟨⟨[], 4, []⟩, 0, false, false, 0, 100, 0, 0⟩

/-- Link for the claim C8 witness: only a plug. -/
def linkC8w : Link := ⟨some portC8w, none⟩

/-- Witness for the amended claim C8, at the clock value 5000. -/
theorem C8_idle_characterisation_witness :
    (portC8w.idleCpp 5000 = true ↔
      (1000 ≤ wsub 5000 portC8w.usec ∧ portC8w.uart.rxBuf = [])) ∧
    (portC8w.idle = true ↔ portC8w.active = false) ∧
    (linkC8w.idle = true ↔
      ((∀ pl, linkC8w.plug = some pl → pl.idle = true) ∧
       (∀ so, linkC8w.socket = some so → so.idle = true))) :=
  C8_idle_characterisation portC8w 5000 linkC8w

/-- Claim C3 counterexample: setPulse does not clamp from below — a
duration of -5 passes the clamp unchanged, so the quantizer receives
the negative fraction -1/20 rather than the 0 that a clamp to the valid
range would produce (and that encoding duration 0 produces); powf of a
negative base is NaN there, so no equality of frames is guaranteed. -/
theorem C3_counterexample :
    clampSeconds (-5) = -5 ∧ clampSeconds (-5) < 0 ∧
    clampSeconds (-5) / 100 ≠ clampSeconds 0 / 100 := by
  norm_num [clampSeconds]

/-- The clamp keeps a nonnegative watts value inside [0, 100]. -/
theorem clampWatts_mem (w : ℚ) (h : 0 ≤ w) :
    0 ≤ clampWatts w ∧ clampWatts w ≤ 100 := by
  unfold clampWatts
  split_ifs with h1
  · norm_num
  · exact ⟨h, by linarith⟩

/-- The clamp keeps a nonnegative seconds value inside [0, 100]. -/
theorem clampSeconds_mem (s : ℚ) (h : 0 ≤ s) :
    0 ≤ clampSeconds s ∧ clampSeconds s ≤ 100 := by
  unfold clampSeconds
  split_ifs with h1
  · norm_num
  · exact ⟨h, by linarith⟩

/-- Packing two 12-bit values the way setPulse does and unpacking them
the way getPulse does is the identity. -/
theorem pack12 (mw ms : Nat) (hw : mw ≤ 4095) (hs : ms ≤ 4095) :
    ((((mw / 256) * 16) % 256 ||| ms / 256) / 16) * 256 ||| mw % 256 = mw ∧
    ((((mw / 256) * 16) % 256 ||| ms / 256) % 16) * 256 ||| ms % 256 = ms := by
  have h1 : mw / 256 < 16 := by omega
  have h2 : ms / 256 < 16 := by omega
  have hm : (mw / 256) * 16 % 256 = (mw / 256) * 16 := Nat.mod_eq_of_lt (by omega)
  rw [hm, lor_nibbles _ h1 _ h2]
  have hd16 : ((mw / 256) * 16 + ms / 256) / 16 = mw / 256 := by omega
  have hm16 : ((mw / 256) * 16 + ms / 256) % 16 = ms / 256 := by omega
  rw [hd16, hm16, lor_byte _ h1 _ (Nat.mod_lt _ (by norm_num)),
      lor_byte _ h2 _ (Nat.mod_lt _ (by norm_num))]
  omega

/-- Claim C3 amended: setPulse clamps only from above — power 150
encodes to the very frame power 100 encodes to, and duration 200 to the
frame duration 100 encodes to; negative inputs pass unclamped.  For
nonnegative inputs, under any quantizer mapping fractions in [0, 1] to
raw values at most 4095 (as the intended powf computation does), the
packed 12-bit power and duration fields equal the quantizer outputs and
never exceed 4095: clamped, never wrapped. -/
theorem C3_setpulse_clamp (qw qs : ℚ → Nat) (pulse : Pulse) :
    (∀ port s fi fo, Packet.setPulse qw qs ⟨port, 150, s, fi, fo⟩ =
        Packet.setPulse qw qs ⟨port, 100, s, fi, fo⟩) ∧
    (∀ port w fi fo, Packet.setPulse qw qs ⟨port, w, 200, fi, fo⟩ =
        Packet.setPulse qw qs ⟨port, w, 100, fi, fo⟩) ∧
    (0 ≤ pulse.watts → 0 ≤ pulse.seconds →
      (∀ x, 0 ≤ x → x ≤ 1 → qw x ≤ 4095) →
      (∀ x, 0 ≤ x → x ≤ 1 → qs x ≤ 4095) →
      (Packet.setPulse qw qs pulse).powerRaw = qw (clampWatts pulse.watts / 100) ∧
      (Packet.setPulse qw qs pulse).durationRaw = qs (clampSeconds pulse.seconds / 100) ∧
      (Packet.setPulse qw qs pulse).powerRaw ≤ 4095 ∧
      (Packet.setPulse qw qs pulse).durationRaw ≤ 4095) := by
  refine ⟨?_, ?_, ?_⟩
  · intro port s fi fo
    have hc : clampWatts 150 = clampWatts 100 := by norm_num [clampWatts]
    simp [Packet.setPulse, hc]
  · intro port w fi fo
    have hc : clampSeconds 200 = clampSeconds 100 := by norm_num [clampSeconds]
    simp [Packet.setPulse, hc]
  · intro hw hs hqw hqs
    have hcw := clampWatts_mem pulse.watts hw
    have hcs := clampSeconds_mem pulse.seconds hs
    have hxw0 : 0 ≤ clampWatts pulse.watts / 100 :=
      div_nonneg hcw.1 (by norm_num)
    have hxw1 : clampWatts pulse.watts / 100 ≤ 1 :=
      (div_le_one (by norm_num)).mpr hcw.2
    have hxs0 : 0 ≤ clampSeconds pulse.seconds / 100 :=
      div_nonneg hcs.1 (by norm_num)
    have hxs1 : clampSeconds pulse.seconds / 100 ≤ 1 :=
      (div_le_one (by norm_num)).mpr hcs.2
    have hW : qw (clampWatts pulse.watts / 100) ≤ 4095 := hqw _ hxw0 hxw1
    have hS : qs (clampSeconds pulse.seconds / 100) ≤ 4095 := hqs _ hxs0 hxs1
    have hWm : qw (clampWatts pulse.watts / 100) % 65536 =
        qw (clampWatts pulse.watts / 100) := Nat.mod_eq_of_lt (by omega)
    have hSm : qs (clampSeconds pulse.seconds / 100) % 65536 =
        qs (clampSeconds pulse.seconds / 100) := Nat.mod_eq_of_lt (by omega)
    have hpack := pack12 (qw (clampWatts pulse.watts / 100))
      (qs (clampSeconds pulse.seconds / 100)) hW hS
    unfold Packet.setPulse Packet.powerRaw Packet.durationRaw
    dsimp only
    rw [hWm, hSm]
    refine ⟨hpack.1, hpack.2, ?_, ?_⟩
    · rw [hpack.1]
      exact hW
    · rw [hpack.2]
      exact hS

/-- Pulse for the claim C3 witness: in-range half power and half
duration. -/
def pulseC3 : Pulse := ⟨2, 50, 50, false, false⟩

/-- Witness for the amended claim C3 with the constant-zero quantizer:
the power-150 frame equals the power-100 frame, and the packed fields
equal the quantizer outputs without exceeding 4095. -/
theorem C3_setpulse_clamp_witness :
    (Packet.setPulse (fun _ => 0) (fun _ => 0) ⟨2, 150, 7, false, false⟩ =
        Packet.setPulse (fun _ => 0) (fun _ => 0) ⟨2, 100, 7, false, false⟩) ∧
    ((Packet.setPulse (fun _ => 0) (fun _ => 0) pulseC3).powerRaw = 0 ∧
      (Packet.setPulse (fun _ => 0) (fun _ => 0) pulseC3).durationRaw = 0 ∧
      (Packet.setPulse (fun _ => 0) (fun _ => 0) pulseC3).powerRaw ≤ 4095 ∧
      (Packet.setPulse (fun _ => 0) (fun _ => 0) pulseC3).durationRaw ≤ 4095) := by
  constructor
  · exact (C3_setpulse_clamp (fun _ => 0) (fun _ => 0) pulseC3).1 2 7 false false
  · exact (C3_setpulse_clamp (fun _ => 0) (fun _ => 0) pulseC3).2.2
      (by norm_num [pulseC3]) (by norm_num [pulseC3])
      (fun x h1 h2 => by norm_num) (fun x h1 h2 => by norm_num)

end V2Link
